import Mathlib

/-!
Ambient transaction layer of `pkg/database/postgres.go`.

A shallow embedding of `DBService.BeginTransaction`, `GetTransaction`,
`CommitTransaction`, `RollbackTransaction`, `Defer`, the lock-type setters and
getter and `NewPostgres`, of `GlobalConfig.Validate` of `config/config.go`, and
of the book repository and use cases of `internal/example`.

* A `context.Context` is the chain that `context.WithValue` and the
  cancellation constructors build over `context.Background()`; `Context.Value`
  is the innermost-first lookup of the standard library.
* The values of a context are Go interface values (`any`): the nil interface, a
  non-nil `*gorm.DB`, a `string`, or a value of some other dynamic type.
* gorm is an external collaborator.  Of it the calls the service issues are
  recorded (`Event`), in issue order, together with the set of handles whose
  `Error` field gorm has set.  Whether a call fails is decided by a `Driver`,
  an arbitrary function of the history, so every theorem holds for every
  behaviour of the data store.
* `database/sql` keeps a transaction per handle: which of the issued commits
  and rollbacks are executed on the store is followed in `TxStore`.  Its pool
  limits and their setters are `SqlDB`.
* A Go function either returns or panics: `Outcome`.
-/

namespace Database

/-- A `*gorm.DB` pointer (non-nil): the pool-level `db.Gorm` of the service, or
the handle returned by the `n`-th call of `db.Gorm.Begin()`. -/
inductive GormDB
  | pool
  | tx (id : Nat)
  deriving DecidableEq, Repr

/-- A Go interface value (`any`) as stored in a context. -/
inductive AnyValue
  | nil
  | db (ref : GormDB)
  | str (s : String)
  | other (tag : Nat)
  deriving DecidableEq, Repr

/-- A context key: a value of the package's type `ContextTransaction` (a string
type, as its two string constants in `postgres.go` show), or a key of any other
type (never equal to a `ContextTransaction` key). -/
inductive ContextKey
  | contextTransaction (name : String)
  | foreign (tag : Nat)
  deriving DecidableEq, Repr

/-- The constant `TransactionContextKey ContextTransaction = "postgres:transaction"`. -/
def TransactionContextKey : ContextKey := .contextTransaction "postgres:transaction"

/-- The constant `TransactionLockTypeContextKey`. -/
def TransactionLockTypeContextKey : ContextKey :=
  .contextTransaction "postgres:transaction_lock_type"

/-- The constant `PostgresLockTypeForUpdate`. -/
def PostgresLockTypeForUpdate : String := "UPDATE"

/-- The constant `PostgresLockTypeForShare`. -/
def PostgresLockTypeForShare : String := "SHARE"

/-- A `context.Context`: `context.Background()`, `context.WithValue(parent, key, val)`,
or a context derived by `context.WithCancel`, `WithTimeout` or `WithDeadline`,
with whether its own `Done` channel is closed (cancelled, or past its
deadline) at the time it is used. -/
inductive Context
  | background
  | withValue (parent : Context) (key : ContextKey) (val : AnyValue)
  | withCancel (parent : Context) (done : Bool)
  deriving DecidableEq, Repr

/-- The method `ctx.Value(key)`: the value of the innermost binding of `key`,
the nil interface when there is none. A cancellation node hands the lookup to
its parent. -/
def Context.Value : Context → ContextKey → AnyValue
  | .background, _ => .nil
  | .withValue parent k v, key => if k = key then v else parent.Value key
  | .withCancel parent _, key => parent.Value key

/-- Whether `ctx.Err()` is non-nil: the context or one of its ancestors is
cancelled or past its deadline. -/
def Context.Err : Context → Bool
  | .background => false
  | .withValue parent _ _ => parent.Err
  | .withCancel parent done => done || parent.Err

/-- The number of `WithValue` bindings of `key` on the derivation chain of a context. -/
def Context.bindings (key : ContextKey) : Context → Nat
  | .background => 0
  | .withValue parent k _ => (if k = key then 1 else 0) + parent.bindings key
  | .withCancel parent _ => parent.bindings key

/-- A non-nil panic value: the runtime error of a failed type assertion on the
given dynamic value, or any other value handed to `panic`. -/
inductive PanicValue
  | typeAssertion (dynamic : AnyValue)
  | raised (tag : Nat)
  deriving DecidableEq, Repr

/-- How a Go call ends: it returns a value or it panics. -/
inductive Outcome (α : Type)
  | returned (a : α)
  | panicked (p : PanicValue)
  deriving DecidableEq, Repr

/-- A call the service issues on gorm: `db.Gorm.Begin()` (with the handle it
returned), `tx.Commit()` or `tx.Rollback()`. -/
inductive Event
  | begin (h : GormDB)
  | commit (h : GormDB)
  | rollback (h : GormDB)
  deriving DecidableEq, Repr

/-- The observable state behind the service: how many times `Begin` was called
on the pool, the calls issued so far, and the handles whose `Error` field is set. -/
structure PoolState where
  started : Nat
  log : List Event
  errored : List GormDB
  deriving DecidableEq, Repr

/-- The state of a freshly opened service. -/
def PoolState.init : PoolState := ⟨0, [], []⟩

/-- The data store as seen through gorm: whether the next `Begin`, a `Commit`
or a `Rollback` fails, given the history. -/
structure Driver where
  beginErr : PoolState → Bool
  commitErr : PoolState → GormDB → Bool
  rollbackErr : PoolState → GormDB → Bool

/-- A data store on which no call fails. -/
def Driver.healthy : Driver := ⟨fun _ => false, fun _ _ => false, fun _ _ => false⟩

/-- A data store on which every call fails. -/
def Driver.failing : Driver := ⟨fun _ => true, fun _ _ => true, fun _ _ => true⟩

/-- The call `db.Gorm.Begin()`: it always returns a fresh non-nil handle; a
failure is recorded in the handle's `Error` field. -/
def GormDB.Begin (drv : Driver) (s : PoolState) : GormDB × PoolState :=
  let h := GormDB.tx s.started
  (h, { started := s.started + 1
        log := s.log ++ [Event.begin h]
        errored := if drv.beginErr s then h :: s.errored else s.errored })

/-- The call `tx.Commit()`: it returns its receiver; a failure is recorded in
the receiver's `Error` field. -/
def GormDB.Commit (drv : Driver) (s : PoolState) (tx : GormDB) : GormDB × PoolState :=
  (tx, { started := s.started
         log := s.log ++ [Event.commit tx]
         errored := if drv.commitErr s tx then tx :: s.errored else s.errored })

/-- The call `tx.Rollback()`: it returns its receiver; a failure is recorded in
the receiver's `Error` field. -/
def GormDB.Rollback (drv : Driver) (s : PoolState) (tx : GormDB) : GormDB × PoolState :=
  (tx, { started := s.started
         log := s.log ++ [Event.rollback tx]
         errored := if drv.rollbackErr s tx then tx :: s.errored else s.errored })

/-- The session `tx.WithContext(ctx)`: statements run on `base`, under `ctx`. -/
structure Session where
  base : GormDB
  ctx : Context
  deriving DecidableEq, Repr

/-- The call `tx.WithContext(ctx)`. -/
def GormDB.WithContext (tx : GormDB) (ctx : Context) : Session := ⟨tx, ctx⟩

/-- The type assertion `v.(*gorm.DB)` (the form without `ok`): it panics on
the nil interface and on a value of another dynamic type. -/
def assertGormDB : AnyValue → Outcome GormDB
  | .db ref => .returned ref
  | v => .panicked (.typeAssertion v)

/-- The type assertion `v.(string)`. -/
def assertString : AnyValue → Outcome String
  | .str s => .returned s
  | v => .panicked (.typeAssertion v)

/-- The method `DBService.BeginTransaction`. -/
def BeginTransaction (drv : Driver) (s : PoolState) (ctx : Context) :
    Outcome (Context × GormDB) × PoolState :=
  let tx := ctx.Value TransactionContextKey
  let (tx, ctx, s) :=
    if tx = AnyValue.nil then
      let (h, s1) := GormDB.Begin drv s
      (AnyValue.db h, Context.withValue ctx TransactionContextKey (AnyValue.db h), s1)
    else (tx, ctx, s)
  match assertGormDB tx with
  | .returned ref => (.returned (ctx, ref), s)
  | .panicked p => (.panicked p, s)

/-- The method `DBService.SetUpdateLockType`. -/
def SetUpdateLockType (ctx : Context) : Context :=
  Context.withValue ctx TransactionLockTypeContextKey (AnyValue.str PostgresLockTypeForUpdate)

/-- The method `DBService.SetShareLockType`. -/
def SetShareLockType (ctx : Context) : Context :=
  Context.withValue ctx TransactionLockTypeContextKey (AnyValue.str PostgresLockTypeForShare)

/-- The method `DBService.GetLockType`: a nil pointer (`none`) when no lock
type is bound. -/
def GetLockType (ctx : Context) : Outcome (Option String) :=
  let lockType := ctx.Value TransactionLockTypeContextKey
  if lockType = AnyValue.nil then .returned none
  else
    match assertString lockType with
    | .returned s => .returned (some s)
    | .panicked p => .panicked p

/-- The method `DBService.Defer`, run as a deferred call. `recovered` is what
`recover()` yields: `none` when no panic is in flight, the panic value otherwise
(a panic in flight always has a non-nil value: `panic(nil)` raises a
`*runtime.PanicNilError`). The type assertion comes first, so its panic
happens before `recover()` is reached. -/
def Defer (drv : Driver) (s : PoolState) (ctx : Context) (recovered : Option PanicValue) :
    Outcome Unit × PoolState :=
  match assertGormDB (ctx.Value TransactionContextKey) with
  | .panicked p => (.panicked p, s)
  | .returned tx =>
    match recovered with
    | some p => (.panicked p, (GormDB.Rollback drv s tx).2)
    | none => (.returned (), (GormDB.Commit drv s tx).2)

/-- The method `DBService.GetTransaction`. -/
def GetTransaction (s : PoolState) (ctx : Context) : Outcome Session × PoolState :=
  let tx := ctx.Value TransactionContextKey
  let tx := if tx = AnyValue.nil then AnyValue.db GormDB.pool else tx
  match assertGormDB tx with
  | .returned ref => (.returned (ref.WithContext ctx), s)
  | .panicked p => (.panicked p, s)

/-- One call of the service, with the context it is given. -/
inductive Call
  | beginTransaction (ctx : Context)
  | getTransaction (ctx : Context)
  | commitTransaction (ctx : Context)
  | rollbackTransaction (ctx : Context)
  | defer (ctx : Context) (recovered : Option PanicValue)
  deriving DecidableEq, Repr

/-- The context a call is given. -/
def Call.ctx : Call → Context
  | .beginTransaction c => c
  | .getTransaction c => c
  | .commitTransaction c => c
  | .rollbackTransaction c => c
  | .defer c _ => c

/-- How many `Commit`s on `h` a list of calls holds. -/
def commits (h : GormDB) (log : List Event) : Nat := log.count (Event.commit h)

/-- How many `Rollback`s on `h` a list of calls holds. -/
def rollbacks (h : GormDB) (log : List Event) : Nat := log.count (Event.rollback h)

/-- Applies a function to the value a call returned. -/
def Outcome.map {α β : Type} (f : α → β) : Outcome α → Outcome β
  | .returned a => .returned (f a)
  | .panicked p => .panicked p

/-- One step of deriving a context through the service. -/
inductive DeriveOp
  | setUpdateLockType
  | setShareLockType
  | beginTransaction
  deriving DecidableEq, Repr

/-- The lock type a step sets, if it is a lock setter. -/
def DeriveOp.intent : DeriveOp → Option String
  | .setUpdateLockType => some PostgresLockTypeForUpdate
  | .setShareLockType => some PostgresLockTypeForShare
  | .beginTransaction => none

/-- The lock type set by the last lock setter of a sequence of steps. -/
def lastIntent : List DeriveOp → Option String
  | [] => none
  | op :: rest =>
    match lastIntent rest with
    | some i => some i
    | none => op.intent

/-- Derives a context by a sequence of steps, each applied to the context the
previous one returned; a panic of `BeginTransaction` ends the sequence. -/
def derive (drv : Driver) : PoolState → Context → List DeriveOp → Outcome Context × PoolState
  | s, c, [] => (.returned c, s)
  | s, c, .setUpdateLockType :: rest => derive drv s (SetUpdateLockType c) rest
  | s, c, .setShareLockType :: rest => derive drv s (SetShareLockType c) rest
  | s, c, .beginTransaction :: rest =>
    match BeginTransaction drv s c with
    | (.returned (c1, _), s1) => derive drv s1 c1 rest
    | (.panicked p, s1) => (.panicked p, s1)

/-! ### `NewPostgres`

The values of `float64` that occur are integers, so a `float64` is modelled
by the integer it holds. -/

/-- The constant `DefaultPostgresMaxOpenConnections = float64(10)`. -/
def DefaultPostgresMaxOpenConnections : Int := 10

/-- The constant `DefaultPostgresMaxIdleConnections = float64(5)`. -/
def DefaultPostgresMaxIdleConnections : Int := 5

/-- The constant `DefaultPostgresMaxIdleTimeConnections = float64(19)`. -/
def DefaultPostgresMaxIdleTimeConnections : Int := 19

/-- The constant `TracePostgresServiceName`. -/
def TracePostgresServiceName : String := "postgres"

/-- The magnitude of a `float64` nearest to a natural number of at least 54
bits (and below `2^64`): the leading 53 bits, rounded on the dropped bits
with ties to even. -/
def roundTo53Bits (m : Nat) : Nat :=
  let e := ((List.range 12).find? (fun e => decide (m < 2 ^ (53 + e)))).getD 11
  let q := m / 2 ^ e
  let r := m % 2 ^ e
  let q1 := if 2 ^ e < 2 * r ∨ (2 * r = 2 ^ e ∧ q % 2 = 1) then q + 1 else q
  q1 * 2 ^ e

/-- The conversion `float64(n)` of a Go `int` (64 bits): exact below `2^53` in
magnitude, otherwise rounded to 53 significant bits, ties to even. -/
def float64OfInt (n : Int) : Int :=
  if n.natAbs < 2 ^ 53 then n else n.sign * (roundTo53Bits n.natAbs : Int)

/-- The function `math.Max` on the values that occur here. -/
def mathMax (x y : Int) : Int := max x y

/-- The conversion `int(f)` of an integer-valued `float64`: the value itself
when it fits a 64-bit `int`; `none` stands for the implementation-dependent
result Go leaves open when it does not fit. -/
def intOfFloat64 (f : Int) : Option Int :=
  if -(2 : Int) ^ 63 ≤ f ∧ f < (2 : Int) ^ 63 then some f else none

/-- Modelled from the spec: the declaration of `DBServiceOpts` is not among the
sources; these are the fields `NewPostgres` reads (the pool configuration of
the spec: connection URI, max-open and max-idle connections), a nil pointer
being `none`. -/
structure DBServiceOpts where
  PostgresUri : Option String
  ApplicationName : Option String
  PostgresMaxOpenConnections : Int
  PostgresMaxIdleConnections : Int
  deriving DecidableEq, Repr

/-- The limits of a `*sql.DB` of `database/sql`: `maxOpen` (0 or less means
unlimited), `maxIdleCount` (0 means the default of 2, negative means none) and
`maxIdleTime` in nanoseconds. -/
structure SqlDB where
  maxOpen : Int
  maxIdleCount : Int
  maxIdleTime : Int
  deriving DecidableEq, Repr

/-- The limits of a `*sql.DB` as `sql.Open` leaves them. -/
def SqlDB.opened : SqlDB := ⟨0, 0, 0⟩

/-- The method `maxIdleConnsLocked` of `database/sql`: the idle limit in force. -/
def SqlDB.maxIdleConnsLocked (db : SqlDB) : Int :=
  if db.maxIdleCount = 0 then 2
  else if db.maxIdleCount < 0 then 0
  else db.maxIdleCount

/-- The method `SetMaxIdleConns` of `database/sql`: a non-positive `n` means no
idle connections; an idle limit above a positive `maxOpen` is lowered to `maxOpen`. -/
def SqlDB.SetMaxIdleConns (db : SqlDB) (n : Int) : SqlDB :=
  let db : SqlDB := { db with maxIdleCount := if n > 0 then n else -1 }
  if db.maxOpen > 0 ∧ db.maxIdleConnsLocked > db.maxOpen then
    { db with maxIdleCount := db.maxOpen }
  else db

/-- The method `SetMaxOpenConns` of `database/sql`: a negative `n` means
unlimited; an idle limit above the new positive `maxOpen` is lowered with it. -/
def SqlDB.SetMaxOpenConns (db : SqlDB) (n : Int) : SqlDB :=
  let db : SqlDB := { db with maxOpen := if n < 0 then 0 else n }
  if db.maxOpen > 0 ∧ db.maxIdleConnsLocked > db.maxOpen then db.SetMaxIdleConns n
  else db

/-- The method `SetConnMaxIdleTime` of `database/sql`. -/
def SqlDB.SetConnMaxIdleTime (db : SqlDB) (d : Int) : SqlDB :=
  { db with maxIdleTime := if d < 0 then 0 else d }

/-- The service `&DBService{Gorm: db}`, of whose `db` the limits of the pool
are kept; `none` when an `int(...)` conversion of the sizing has the result Go
leaves implementation-dependent. -/
structure DBService where
  Gorm : Option SqlDB
  deriving DecidableEq, Repr

/-- The errors of the four external calls of `NewPostgres`: `pgxpool.Connect`,
`gorm.Open`, `db.DB()` and `sqlDB.PingContext`; `none` is a nil error. -/
structure PostgresEnv where
  connectErr : Option String
  openErr : Option String
  dbErr : Option String
  pingErr : Option String
  deriving DecidableEq, Repr

/-- What `NewPostgres` returns, `(IDBService, error)`, with the options as it leaves them. -/
structure NewPostgresResult where
  service : Option DBService
  err : Option String
  opts : DBServiceOpts
  deriving DecidableEq, Repr

/-- The pool sizing of `NewPostgres`: the calls `SetMaxOpenConns`,
`SetMaxIdleConns` and `SetConnMaxIdleTime`, in this order, on the freshly
opened `sqlDB`. -/
def configurePool (opts : DBServiceOpts) : Option SqlDB :=
  match intOfFloat64 (mathMax (float64OfInt opts.PostgresMaxOpenConnections)
      DefaultPostgresMaxOpenConnections) with
  | none => none
  | some maxOpen =>
    let sqlDB := SqlDB.opened.SetMaxOpenConns maxOpen
    match intOfFloat64 (mathMax (float64OfInt opts.PostgresMaxIdleConnections)
        DefaultPostgresMaxIdleConnections) with
    | none => none
    | some maxIdle =>
      let sqlDB := sqlDB.SetMaxIdleConns maxIdle
      some (sqlDB.SetConnMaxIdleTime (DefaultPostgresMaxIdleTimeConnections * 1000000000))

/-- The function `NewPostgres`. -/
def NewPostgres (env : PostgresEnv) (opts : DBServiceOpts) : NewPostgresResult :=
  match opts.PostgresUri with
  | none => ⟨none, none, opts⟩
  | some _ =>
    let opts : DBServiceOpts :=
      { opts with
        ApplicationName :=
          match opts.ApplicationName with
          | none => some TracePostgresServiceName
          | some name => some (name ++ "_postgres") }
    match env.connectErr with
    | some err => ⟨none, some err, opts⟩
    | none =>
      match env.openErr with
      | some err => ⟨none, some err, opts⟩
      | none =>
        match env.dbErr with
        | some err => ⟨none, some err, opts⟩
        | none =>
          let sqlDB := configurePool opts
          match env.pingErr with
          | some err => ⟨none, some err, opts⟩
          | none => ⟨some ⟨sqlDB⟩, none, opts⟩

end Database

namespace Config

/-- Modelled from the spec: the declaration of `GlobalConfig` is not among the
sources (the spec leaves configuration loading to a collaborator); these are
the fields `Validate` reads, strings and signed numbers. -/
structure GlobalConfig where
  ServiceName : String
  Port : Int
  PostgresURI : String
  JwtIssuer : String
  JwtAudience : String
  JwtExpirationTime : Int
  JwtRefreshTime : Int
  Environment : String
  PrivateKey : String
  PublicKey : String
  deriving DecidableEq, Repr

/-- The method `GlobalConfig.Validate`: `none` is the nil error, `some msg` the
error `errors.New(msg)`. -/
def Validate (c : GlobalConfig) : Option String :=
  let errs : List String := []
  let errs := if c.ServiceName = "" then errs ++ ["SERVICE_NAME is required"] else errs
  let errs := if c.Port ≤ 0 then errs ++ ["PORT must be greater than 0"] else errs
  let errs := if c.PostgresURI = "" then errs ++ ["POSTGRES_URI is required"] else errs
  let errs := if c.JwtIssuer = "" then errs ++ ["JWT_ISSUER is required"] else errs
  let errs := if c.JwtAudience = "" then errs ++ ["JWT_AUDIENCE is required"] else errs
  let errs :=
    if c.JwtExpirationTime ≤ 0 then errs ++ ["JWT_EXPIRATION must be greater than 0"] else errs
  let errs :=
    if c.JwtRefreshTime ≤ 0 then errs ++ ["JWT_REFRESH_EXPIRATION must be greater than 0"]
    else errs
  let errs :=
    if c.Environment = "production" then
      let errs :=
        if c.PrivateKey = "" then errs ++ ["PRIVATE_KEY should be set in production"] else errs
      if c.PublicKey = "" then errs ++ ["PUBLIC_KEY should be set in production"] else errs
    else errs
  if errs.length > 0 then some (String.intercalate "; " errs) else none

/-- The rules of a valid configuration as the specification words them, each
with its message, in the order of the checks: the messages of the rules a
configuration violates. -/
def violatedRules (c : GlobalConfig) : List String :=
  (if c.ServiceName = "" then ["SERVICE_NAME is required"] else [])
    ++ (if c.Port ≤ 0 then ["PORT must be greater than 0"] else [])
    ++ (if c.PostgresURI = "" then ["POSTGRES_URI is required"] else [])
    ++ (if c.JwtIssuer = "" then ["JWT_ISSUER is required"] else [])
    ++ (if c.JwtAudience = "" then ["JWT_AUDIENCE is required"] else [])
    ++ (if c.JwtExpirationTime ≤ 0 then ["JWT_EXPIRATION must be greater than 0"] else [])
    ++ (if c.JwtRefreshTime ≤ 0 then ["JWT_REFRESH_EXPIRATION must be greater than 0"] else [])
    ++ (if c.Environment = "production" ∧ c.PrivateKey = ""
          then ["PRIVATE_KEY should be set in production"] else [])
    ++ (if c.Environment = "production" ∧ c.PublicKey = ""
          then ["PUBLIC_KEY should be set in production"] else [])

end Config

namespace Example

open Database

/-- Modelled from the spec: the declaration of `model.Book` is not among the
sources; these are the fields the repository and the use case read and write
(times as instants on a clock). -/
structure Book where
  ID : String
  Title : String
  Author : String
  CreatedBy : String
  CreatedAt : Int
  UpdatedAt : Int
  deriving DecidableEq, Repr

/-- The zero value `model.Book{}` of `var book model.Book`. -/
def Book.zero : Book := ⟨"", "", "", "", 0, 0⟩

/-- The data store as the repository sees it through a gorm session: the row
`Where("id = ?", id).First` finds, if any, and the errors of `Save` and of
`Where("id = ?", id).Delete`. -/
structure Store where
  first : Session → String → Option Book
  save : Session → Book → Option String
  delete : Session → String → Option String

/-- The method `Repository.Get`: `First` fills `book` when a row matches and
leaves the zero value otherwise (its error is not looked at); the result is the
pointer `&book`, `none` being the nil pointer. -/
def Repository.Get (store : Store) (s : PoolState) (ctx : Context) (id : String) :
    Outcome (Option Book) :=
  let book := Book.zero
  match (GetTransaction s ctx).1 with
  | .panicked p => .panicked p
  | .returned tx =>
    let book := match store.first tx id with
      | some row => row
      | none => book
    .returned (some book)

/-- The method `Repository.Update`: the error of `Save`, `none` being nil. -/
def Repository.Update (store : Store) (s : PoolState) (ctx : Context) (book : Book) :
    Outcome (Option String) :=
  match (GetTransaction s ctx).1 with
  | .panicked p => .panicked p
  | .returned tx => .returned (store.save tx book)

/-- The method `Repository.Delete`: the error of `Delete`, `none` being nil. -/
def Repository.Delete (store : Store) (s : PoolState) (ctx : Context) (id : String) :
    Outcome (Option String) :=
  match (GetTransaction s ctx).1 with
  | .panicked p => .panicked p
  | .returned tx => .returned (store.delete tx id)

/-- The part of the interface `IRepository` the three use cases call. -/
structure IRepository where
  Get : Context → String → Outcome (Option Book)
  Update : Context → Book → Outcome (Option String)
  Delete : Context → String → Outcome (Option String)

/-- The repository `NewRepository` returns: the methods of `Repository` behind
the interface. -/
def NewRepository (store : Store) (s : PoolState) : IRepository :=
  { Get := Repository.Get store s
    Update := Repository.Update store s
    Delete := Repository.Delete store s }

/-- Modelled from the spec: `contract.CreateStatusCode` and
`contract.StatusCodeInternalServerError` are not among the sources; a status
code is recorded as the expression that names it. -/
inductive StatusCode
  | create (code : String)
  | internalServerError
  deriving DecidableEq, Repr

/-- The response bodies of `schema`: `ResponseBookGet`, `ResponseBookUpdate`,
`ResponseBookDelete`. -/
inductive ResponseData
  | bookGet (id title author : String)
  | bookUpdate (id : String)
  | bookDelete
  deriving DecidableEq, Repr

/-- Modelled from the spec: `wrapper.JSONResult`, `wrapper.ResponseFailed` and
`wrapper.ResponseSuccess` are not among the sources; a result is recorded as
the call that builds it, with its arguments (the `nil` data of a failure left out). -/
inductive JSONResult
  | ResponseFailed (code : Nat) (status : StatusCode) (message : String)
  | ResponseSuccess (code : Nat) (data : ResponseData)
  deriving DecidableEq, Repr

/-- The result of the not-found branch of `UseCase.Get`, `Update` and `Delete`:
`ResponseFailed(http.StatusNotFound, contract.CreateStatusCode("0004"), "Book not found", nil)`. -/
def bookNotFound : JSONResult :=
  JSONResult.ResponseFailed 404 (StatusCode.create "0004") "Book not found"

/-- The method `UseCase.Get` (logging left out). -/
def UseCase.Get (repo : IRepository) (ctx : Context) (reqID : String) : Outcome JSONResult :=
  match repo.Get ctx reqID with
  | .panicked p => .panicked p
  | .returned none =>
    .returned (JSONResult.ResponseFailed 404 (StatusCode.create "0004") "Book not found")
  | .returned (some book) =>
    .returned (JSONResult.ResponseSuccess 200
      (ResponseData.bookGet book.ID book.Title book.Author))

/-- The method `UseCase.Update` (logging left out); `now` is `time.Now()`. -/
def UseCase.Update (repo : IRepository) (now : Int) (ctx : Context)
    (reqID reqTitle reqAuthor : String) : Outcome JSONResult :=
  match repo.Get ctx reqID with
  | .panicked p => .panicked p
  | .returned none =>
    .returned (JSONResult.ResponseFailed 404 (StatusCode.create "0004") "Book not found")
  | .returned (some book) =>
    let book := { book with Title := reqTitle, Author := reqAuthor, UpdatedAt := now }
    match repo.Update ctx book with
    | .panicked p => .panicked p
    | .returned (some _) =>
      .returned (JSONResult.ResponseFailed 500 StatusCode.internalServerError
        "Failed to update a book")
    | .returned none =>
      .returned (JSONResult.ResponseSuccess 200 (ResponseData.bookUpdate book.ID))

/-- The method `UseCase.Delete` (logging left out). -/
def UseCase.Delete (repo : IRepository) (ctx : Context) (reqID : String) :
    Outcome JSONResult :=
  match repo.Get ctx reqID with
  | .panicked p => .panicked p
  | .returned none =>
    .returned (JSONResult.ResponseFailed 404 (StatusCode.create "0004") "Book not found")
  | .returned (some book) =>
    match repo.Delete ctx book.ID with
    | .panicked p => .panicked p
    | .returned (some _) =>
      .returned (JSONResult.ResponseFailed 500 StatusCode.internalServerError
        "Failed to delete a book")
    | .returned none =>
      .returned (JSONResult.ResponseSuccess 204 ResponseData.bookDelete)

end Example

namespace Database

/-! ## Lookup and the two cases of `BeginTransaction` -/

theorem Context.Value_withValue_same (ctx : Context) (k : ContextKey) (v : AnyValue) :
    (Context.withValue ctx k v).Value k = v := by
  simp [Context.Value]

theorem BeginTransaction_bound (drv : Driver) (s : PoolState) (ctx : Context) (h : GormDB)
    (hb : ctx.Value TransactionContextKey = AnyValue.db h) :
    BeginTransaction drv s ctx = (Outcome.returned (ctx, h), s) := by
  simp [BeginTransaction, hb, assertGormDB]

theorem BeginTransaction_unbound (drv : Driver) (s : PoolState) (ctx : Context)
    (hn : ctx.Value TransactionContextKey = AnyValue.nil) :
    BeginTransaction drv s ctx
      = (Outcome.returned
          (Context.withValue ctx TransactionContextKey (AnyValue.db (GormDB.tx s.started)),
            GormDB.tx s.started),
         (GormDB.Begin drv s).2) := by
  simp [BeginTransaction, hn, assertGormDB, GormDB.Begin]

theorem BeginTransaction_returned_bound (drv : Driver) (s s1 : PoolState) (c c1 : Context)
    (h1 : GormDB) (hr : BeginTransaction drv s c = (Outcome.returned (c1, h1), s1)) :
    c1.Value TransactionContextKey = AnyValue.db h1 := by
  cases hv : c.Value TransactionContextKey with
  | nil =>
    rw [BeginTransaction_unbound drv s c hv] at hr
    simp only [Prod.mk.injEq, Outcome.returned.injEq] at hr
    obtain ⟨⟨hc, hh⟩, -⟩ := hr
    subst hc hh
    exact Context.Value_withValue_same _ _ _
  | db r =>
    rw [BeginTransaction_bound drv s c r hv] at hr
    simp only [Prod.mk.injEq, Outcome.returned.injEq] at hr
    obtain ⟨⟨hc, hh⟩, -⟩ := hr
    subst hc hh
    exact hv
  | str t => simp [BeginTransaction, hv, assertGormDB] at hr
  | other t => simp [BeginTransaction, hv, assertGormDB] at hr

theorem GetTransaction_bound (s : PoolState) (ctx : Context) (h : GormDB)
    (hb : ctx.Value TransactionContextKey = AnyValue.db h) :
    GetTransaction s ctx = (Outcome.returned ⟨h, ctx⟩, s) := by
  simp [GetTransaction, hb, assertGormDB, GormDB.WithContext]

theorem Defer_bound_commit (drv : Driver) (s : PoolState) (ctx : Context) (h : GormDB)
    (hb : ctx.Value TransactionContextKey = AnyValue.db h) :
    Defer drv s ctx none = (Outcome.returned (), (GormDB.Commit drv s h).2) := by
  simp [Defer, hb, assertGormDB]

theorem Defer_bound_rollback (drv : Driver) (s : PoolState) (ctx : Context) (h : GormDB)
    (p : PanicValue) (hb : ctx.Value TransactionContextKey = AnyValue.db h) :
    Defer drv s ctx (some p) = (Outcome.panicked p, (GormDB.Rollback drv s h).2) := by
  simp [Defer, hb, assertGormDB]

/-! ## Join and begin -/

/-- C1 (idempotent join): whenever `BeginTransaction` on `c` returns `(c1, h1)`,
a second `BeginTransaction` on `c1` returns, with the same context `c1` and
the same handle `h1`, and leaves the pool state as it was: no further
transaction is begun. -/
theorem BeginTransaction_idempotent_join (drv : Driver) (s s1 : PoolState) (c c1 : Context)
    (h1 : GormDB) (hr : BeginTransaction drv s c = (Outcome.returned (c1, h1), s1)) :
    BeginTransaction drv s1 c1 = (Outcome.returned (c1, h1), s1) :=
  BeginTransaction_bound drv s1 c1 h1 (BeginTransaction_returned_bound drv s s1 c c1 h1 hr)

/-- Witness of C1 on the background context of a fresh service. -/
theorem BeginTransaction_idempotent_join_witness :
    BeginTransaction Driver.healthy PoolState.init Context.background
        = (Outcome.returned
            (Context.withValue Context.background TransactionContextKey
              (AnyValue.db (GormDB.tx 0)), GormDB.tx 0),
           ⟨1, [Event.begin (GormDB.tx 0)], []⟩)
      ∧ BeginTransaction Driver.healthy ⟨1, [Event.begin (GormDB.tx 0)], []⟩
          (Context.withValue Context.background TransactionContextKey
            (AnyValue.db (GormDB.tx 0)))
        = (Outcome.returned
            (Context.withValue Context.background TransactionContextKey
              (AnyValue.db (GormDB.tx 0)), GormDB.tx 0),
           ⟨1, [Event.begin (GormDB.tx 0)], []⟩) :=
  ⟨by decide,
    BeginTransaction_idempotent_join Driver.healthy PoolState.init
      ⟨1, [Event.begin (GormDB.tx 0)], []⟩ Context.background
      (Context.withValue Context.background TransactionContextKey (AnyValue.db (GormDB.tx 0)))
      (GormDB.tx 0) (by decide)⟩

/-- C2: on a context with nothing bound under the transaction key,
`BeginTransaction` issues exactly one `Begin` on the pool, returns the fresh
handle `h` together with the context derived from `ctx` by binding `h` under
the transaction key, and `GetTransaction` on that context resolves to `h`
(not to the pool), scoped to that context. -/
theorem BeginTransaction_fresh (drv : Driver) (s : PoolState) (ctx : Context)
    (hn : ctx.Value TransactionContextKey = AnyValue.nil) :
    ∃ s1 : PoolState,
      BeginTransaction drv s ctx
        = (Outcome.returned
            (Context.withValue ctx TransactionContextKey (AnyValue.db (GormDB.tx s.started)),
              GormDB.tx s.started), s1)
      ∧ s1.started = s.started + 1
      ∧ s1.log = s.log ++ [Event.begin (GormDB.tx s.started)]
      ∧ GetTransaction s1
          (Context.withValue ctx TransactionContextKey (AnyValue.db (GormDB.tx s.started)))
        = (Outcome.returned
            ⟨GormDB.tx s.started,
              Context.withValue ctx TransactionContextKey (AnyValue.db (GormDB.tx s.started))⟩,
           s1) := by
  refine ⟨(GormDB.Begin drv s).2, BeginTransaction_unbound drv s ctx hn, rfl, rfl, ?_⟩
  exact GetTransaction_bound _ _ _ (Context.Value_withValue_same _ _ _)

/-- Witness of C2 on the background context of a fresh service. -/
theorem BeginTransaction_fresh_witness :
    ∃ s1 : PoolState,
      BeginTransaction Driver.healthy PoolState.init Context.background
        = (Outcome.returned
            (Context.withValue Context.background TransactionContextKey
              (AnyValue.db (GormDB.tx 0)), GormDB.tx 0), s1)
      ∧ s1.started = 0 + 1
      ∧ s1.log = [] ++ [Event.begin (GormDB.tx 0)]
      ∧ GetTransaction s1
          (Context.withValue Context.background TransactionContextKey
            (AnyValue.db (GormDB.tx 0)))
        = (Outcome.returned
            ⟨GormDB.tx 0,
              Context.withValue Context.background TransactionContextKey
                (AnyValue.db (GormDB.tx 0))⟩,
           s1) :=
  BeginTransaction_fresh Driver.healthy PoolState.init Context.background (by decide)

/-- C3: `GetTransaction` returns the handle bound under the transaction key
when one is bound, and the pool itself when nothing is bound; in both cases the
session is scoped to `ctx`, the pool state is unchanged (nothing is begun,
committed or rolled back) and `ctx` is the context it was. -/
theorem GetTransaction_resolves (s : PoolState) (ctx : Context) :
    (∀ h : GormDB, ctx.Value TransactionContextKey = AnyValue.db h →
        GetTransaction s ctx = (Outcome.returned ⟨h, ctx⟩, s))
      ∧ (ctx.Value TransactionContextKey = AnyValue.nil →
        GetTransaction s ctx = (Outcome.returned ⟨GormDB.pool, ctx⟩, s))
      ∧ (GetTransaction s ctx).2 = s := by
  refine ⟨fun h hb => GetTransaction_bound s ctx h hb, fun hn => ?_, ?_⟩
  · simp [GetTransaction, hn, assertGormDB, GormDB.WithContext]
  · unfold GetTransaction
    simp only
    split <;> rfl

/-- Witness of C3: a context carrying handle 0 resolves to it, the background
context resolves to the pool. -/
theorem GetTransaction_resolves_witness :
    GetTransaction PoolState.init
        (Context.withValue Context.background TransactionContextKey (AnyValue.db (GormDB.tx 0)))
        = (Outcome.returned
            ⟨GormDB.tx 0,
              Context.withValue Context.background TransactionContextKey
                (AnyValue.db (GormDB.tx 0))⟩,
           PoolState.init)
      ∧ GetTransaction PoolState.init Context.background
        = (Outcome.returned ⟨GormDB.pool, Context.background⟩, PoolState.init) :=
  ⟨(GetTransaction_resolves PoolState.init
      (Context.withValue Context.background TransactionContextKey
        (AnyValue.db (GormDB.tx 0)))).1 (GormDB.tx 0) (by decide),
   (GetTransaction_resolves PoolState.init Context.background).2.1 (by decide)⟩

/-! ## The deferred finalizer -/

/-- C4: on a context carrying handle `h`, `Defer` run with a panic `p` in
flight issues exactly one `Rollback` on `h` and nothing else (no `Commit`), and
panics again with the value `p` itself. -/
theorem Defer_panic_rolls_back (drv : Driver) (s : PoolState) (ctx : Context) (h : GormDB)
    (p : PanicValue) (hb : ctx.Value TransactionContextKey = AnyValue.db h) :
    (Defer drv s ctx (some p)).1 = Outcome.panicked p
      ∧ (Defer drv s ctx (some p)).2.log = s.log ++ [Event.rollback h]
      ∧ rollbacks h (Defer drv s ctx (some p)).2.log = rollbacks h s.log + 1
      ∧ commits h (Defer drv s ctx (some p)).2.log = commits h s.log
      ∧ (Defer drv s ctx (some p)).2.started = s.started := by
  rw [Defer_bound_rollback drv s ctx h p hb]
  simp [GormDB.Rollback, rollbacks, commits, List.count_append]

/-- Witness of C4: the handle of a begun transaction, panic value `raised 7`. -/
theorem Defer_panic_rolls_back_witness :
    (Defer Driver.healthy ⟨1, [Event.begin (GormDB.tx 0)], []⟩
        (Context.withValue Context.background TransactionContextKey (AnyValue.db (GormDB.tx 0)))
        (some (PanicValue.raised 7))).1 = Outcome.panicked (PanicValue.raised 7)
      ∧ (Defer Driver.healthy ⟨1, [Event.begin (GormDB.tx 0)], []⟩
        (Context.withValue Context.background TransactionContextKey (AnyValue.db (GormDB.tx 0)))
        (some (PanicValue.raised 7))).2.log
          = [Event.begin (GormDB.tx 0)] ++ [Event.rollback (GormDB.tx 0)] :=
  ⟨(Defer_panic_rolls_back Driver.healthy ⟨1, [Event.begin (GormDB.tx 0)], []⟩
      (Context.withValue Context.background TransactionContextKey (AnyValue.db (GormDB.tx 0)))
      (GormDB.tx 0) (PanicValue.raised 7) (by decide)).1,
   (Defer_panic_rolls_back Driver.healthy ⟨1, [Event.begin (GormDB.tx 0)], []⟩
      (Context.withValue Context.background TransactionContextKey (AnyValue.db (GormDB.tx 0)))
      (GormDB.tx 0) (PanicValue.raised 7) (by decide)).2.1⟩

/-- C5: on a context carrying handle `h`, `Defer` run with no panic in flight
issues exactly one `Commit` on `h` and nothing else (no `Rollback`), and
returns normally. -/
theorem Defer_normal_commits (drv : Driver) (s : PoolState) (ctx : Context) (h : GormDB)
    (hb : ctx.Value TransactionContextKey = AnyValue.db h) :
    (Defer drv s ctx none).1 = Outcome.returned ()
      ∧ (Defer drv s ctx none).2.log = s.log ++ [Event.commit h]
      ∧ commits h (Defer drv s ctx none).2.log = commits h s.log + 1
      ∧ rollbacks h (Defer drv s ctx none).2.log = rollbacks h s.log
      ∧ (Defer drv s ctx none).2.started = s.started := by
  rw [Defer_bound_commit drv s ctx h hb]
  simp [GormDB.Commit, rollbacks, commits, List.count_append]

/-- Witness of C5: the handle of a begun transaction. -/
theorem Defer_normal_commits_witness :
    (Defer Driver.healthy ⟨1, [Event.begin (GormDB.tx 0)], []⟩
        (Context.withValue Context.background TransactionContextKey (AnyValue.db (GormDB.tx 0)))
        none).1 = Outcome.returned ()
      ∧ (Defer Driver.healthy ⟨1, [Event.begin (GormDB.tx 0)], []⟩
        (Context.withValue Context.background TransactionContextKey (AnyValue.db (GormDB.tx 0)))
        none).2.log = [Event.begin (GormDB.tx 0)] ++ [Event.commit (GormDB.tx 0)] :=
  ⟨(Defer_normal_commits Driver.healthy ⟨1, [Event.begin (GormDB.tx 0)], []⟩
      (Context.withValue Context.background TransactionContextKey (AnyValue.db (GormDB.tx 0)))
      (GormDB.tx 0) (by decide)).1,
   (Defer_normal_commits Driver.healthy ⟨1, [Event.begin (GormDB.tx 0)], []⟩
      (Context.withValue Context.background TransactionContextKey (AnyValue.db (GormDB.tx 0)))
      (GormDB.tx 0) (by decide)).2.1⟩

/-- C7 at the failing input: on the background context, which carries no
handle, `Defer` does not return: the type assertion on the nil interface
panics, with no panic in flight and (taking the place of the original panic)
with one in flight. -/
theorem Defer_unbound_panics :
    Defer Driver.healthy PoolState.init Context.background none
        = (Outcome.panicked (PanicValue.typeAssertion AnyValue.nil), PoolState.init)
      ∧ Defer Driver.healthy PoolState.init Context.background (some (PanicValue.raised 7))
        = (Outcome.panicked (PanicValue.typeAssertion AnyValue.nil), PoolState.init) := by
  decide

/-! ## Sequences of calls on one handle -/

/-- C8 refuted as stated: the join on the context carrying handle 0 returns
the same context and handle, and `Defer` on that joined context, with no panic
in flight, issues a `Commit` on the handle. -/
theorem joiner_Defer_counterexample :
    BeginTransaction Driver.healthy PoolState.init Context.background
        = (Outcome.returned
            (Context.withValue Context.background TransactionContextKey
              (AnyValue.db (GormDB.tx 0)), GormDB.tx 0),
           ⟨1, [Event.begin (GormDB.tx 0)], []⟩)
      ∧ BeginTransaction Driver.healthy ⟨1, [Event.begin (GormDB.tx 0)], []⟩
          (Context.withValue Context.background TransactionContextKey
            (AnyValue.db (GormDB.tx 0)))
        = (Outcome.returned
            (Context.withValue Context.background TransactionContextKey
              (AnyValue.db (GormDB.tx 0)), GormDB.tx 0),
           ⟨1, [Event.begin (GormDB.tx 0)], []⟩)
      ∧ Defer Driver.healthy ⟨1, [Event.begin (GormDB.tx 0)], []⟩
          (Context.withValue Context.background TransactionContextKey
            (AnyValue.db (GormDB.tx 0))) none
        = (Outcome.returned (),
           ⟨1, [Event.begin (GormDB.tx 0), Event.commit (GormDB.tx 0)], []⟩) := by
  decide

/-- C8 as amended: on a context `c` already carrying handle `h`,
`BeginTransaction` joins (same context, same handle, pool state unchanged), and
`Defer` on the joined context finalizes `h` as it does for any context carrying
`h`: one `Commit` on `h` when no panic is in flight, one `Rollback` on `h` and
the same panic again when one is. -/
theorem joiner_Defer_finalizes (drv : Driver) (s : PoolState) (c : Context) (h : GormDB)
    (hb : c.Value TransactionContextKey = AnyValue.db h) :
    BeginTransaction drv s c = (Outcome.returned (c, h), s)
      ∧ (∀ c2 h2 s2, BeginTransaction drv s c = (Outcome.returned (c2, h2), s2) →
          (Defer drv s2 c2 none).1 = Outcome.returned ()
            ∧ (Defer drv s2 c2 none).2.log = s.log ++ [Event.commit h]
            ∧ ∀ p : PanicValue,
                (Defer drv s2 c2 (some p)).1 = Outcome.panicked p
                  ∧ (Defer drv s2 c2 (some p)).2.log = s.log ++ [Event.rollback h]) := by
  refine ⟨BeginTransaction_bound drv s c h hb, ?_⟩
  intro c2 h2 s2 hr
  rw [BeginTransaction_bound drv s c h hb] at hr
  simp only [Prod.mk.injEq, Outcome.returned.injEq] at hr
  obtain ⟨⟨hc, -⟩, hs⟩ := hr
  subst hc hs
  refine ⟨?_, ?_, fun p => ⟨?_, ?_⟩⟩
  · rw [Defer_bound_commit drv s c h hb]
  · rw [Defer_bound_commit drv s c h hb]; rfl
  · rw [Defer_bound_rollback drv s c h p hb]
  · rw [Defer_bound_rollback drv s c h p hb]; rfl

/-- Witness of C8 as amended: the join on the context carrying handle 0. -/
theorem joiner_Defer_finalizes_witness :
    BeginTransaction Driver.healthy ⟨1, [Event.begin (GormDB.tx 0)], []⟩
        (Context.withValue Context.background TransactionContextKey (AnyValue.db (GormDB.tx 0)))
      = (Outcome.returned
          (Context.withValue Context.background TransactionContextKey
            (AnyValue.db (GormDB.tx 0)), GormDB.tx 0),
         ⟨1, [Event.begin (GormDB.tx 0)], []⟩) :=
  (joiner_Defer_finalizes Driver.healthy ⟨1, [Event.begin (GormDB.tx 0)], []⟩
    (Context.withValue Context.background TransactionContextKey (AnyValue.db (GormDB.tx 0)))
    (GormDB.tx 0) (by decide)).1

/-! ## Failures of the data store -/

/-- C9 refuted as stated: on a data store whose `Begin` fails,
`BeginTransaction` on the background context returns normally, and the context
it returns carries the new handle under the transaction key. -/
theorem BeginTransaction_failure_counterexample :
    Driver.failing.beginErr PoolState.init = true
      ∧ BeginTransaction Driver.failing PoolState.init Context.background
        = (Outcome.returned
            (Context.withValue Context.background TransactionContextKey
              (AnyValue.db (GormDB.tx 0)), GormDB.tx 0),
           ⟨1, [Event.begin (GormDB.tx 0)], [GormDB.tx 0]⟩)
      ∧ (Context.withValue Context.background TransactionContextKey
            (AnyValue.db (GormDB.tx 0))).Value TransactionContextKey
        = AnyValue.db (GormDB.tx 0) := by
  decide

/-- C9 as amended: on a context carrying no handle, when the begin on the pool
fails, `BeginTransaction` still returns normally (it has no error result and
does not panic); the context it returns carries the new handle under the
transaction key, and the failure is recorded on that handle only (its `Error`
field). -/
theorem BeginTransaction_failure_binds (drv : Driver) (s : PoolState) (ctx : Context)
    (hn : ctx.Value TransactionContextKey = AnyValue.nil) (hf : drv.beginErr s = true) :
    ∃ (c1 : Context) (s1 : PoolState),
      BeginTransaction drv s ctx = (Outcome.returned (c1, GormDB.tx s.started), s1)
        ∧ c1.Value TransactionContextKey = AnyValue.db (GormDB.tx s.started)
        ∧ GormDB.tx s.started ∈ s1.errored
        ∧ s1.log = s.log ++ [Event.begin (GormDB.tx s.started)] := by
  refine ⟨_, _, BeginTransaction_unbound drv s ctx hn, Context.Value_withValue_same _ _ _, ?_, rfl⟩
  simp [GormDB.Begin, hf]

/-- Witness of C9 as amended: the failing data store, the background context. -/
theorem BeginTransaction_failure_binds_witness :
    ∃ (c1 : Context) (s1 : PoolState),
      BeginTransaction Driver.failing PoolState.init Context.background
          = (Outcome.returned (c1, GormDB.tx PoolState.init.started), s1)
        ∧ c1.Value TransactionContextKey = AnyValue.db (GormDB.tx PoolState.init.started)
        ∧ GormDB.tx PoolState.init.started ∈ s1.errored
        ∧ s1.log = PoolState.init.log ++ [Event.begin (GormDB.tx PoolState.init.started)] :=
  BeginTransaction_failure_binds Driver.failing PoolState.init Context.background
    (by decide) (by decide)

/-- C10 refuted as stated: on a data store whose `Commit` fails, `Defer` with
no panic in flight on the context carrying handle 0 returns normally, with
nothing handed to its caller. -/
theorem Defer_commit_failure_counterexample :
    Driver.failing.commitErr ⟨1, [Event.begin (GormDB.tx 0)], []⟩ (GormDB.tx 0) = true
      ∧ Defer Driver.failing ⟨1, [Event.begin (GormDB.tx 0)], []⟩
          (Context.withValue Context.background TransactionContextKey
            (AnyValue.db (GormDB.tx 0))) none
        = (Outcome.returned (),
           ⟨1, [Event.begin (GormDB.tx 0), Event.commit (GormDB.tx 0)], [GormDB.tx 0]⟩) := by
  decide

/-- C10 as amended: on a context carrying handle `h` whose commit fails,
`Defer` on the normal path issues the `Commit` on `h` and returns normally,
with the same outcome as when the commit succeeds; the failure is recorded on
the handle only (its `Error` field). -/
theorem Defer_commit_failure_silent (drv : Driver) (s : PoolState) (ctx : Context) (h : GormDB)
    (hb : ctx.Value TransactionContextKey = AnyValue.db h) (hf : drv.commitErr s h = true) :
    (Defer drv s ctx none).1 = Outcome.returned ()
      ∧ (Defer drv s ctx none).1 = (Defer Driver.healthy s ctx none).1
      ∧ (Defer drv s ctx none).2.log = s.log ++ [Event.commit h]
      ∧ h ∈ (Defer drv s ctx none).2.errored := by
  rw [Defer_bound_commit drv s ctx h hb, Defer_bound_commit Driver.healthy s ctx h hb]
  simp [GormDB.Commit, hf]

/-- Witness of C10 as amended: the failing data store, the context carrying handle 0. -/
theorem Defer_commit_failure_silent_witness :
    (Defer Driver.failing ⟨1, [Event.begin (GormDB.tx 0)], []⟩
        (Context.withValue Context.background TransactionContextKey (AnyValue.db (GormDB.tx 0)))
        none).1 = Outcome.returned () :=
  (Defer_commit_failure_silent Driver.failing ⟨1, [Event.begin (GormDB.tx 0)], []⟩
    (Context.withValue Context.background TransactionContextKey (AnyValue.db (GormDB.tx 0)))
    (GormDB.tx 0) (by decide) (by decide)).1

/-! ## The lock type and derived contexts -/

theorem TransactionContextKey_ne_lockType :
    TransactionContextKey ≠ TransactionLockTypeContextKey := by decide

theorem Context.Value_of_bindings_zero (k : ContextKey) (c : Context)
    (h : c.bindings k = 0) : c.Value k = AnyValue.nil := by
  induction c with
  | background => rfl
  | withValue parent key val ih =>
    simp only [Context.bindings] at h
    by_cases hk : key = k
    · simp [hk] at h
    · simp only [hk, if_false, zero_add] at h
      simp [Context.Value, hk, ih h]
  | withCancel parent done ih =>
    simp only [Context.bindings] at h
    simp [Context.Value, ih h]

theorem GetLockType_of_str (c : Context) (i : String)
    (h : c.Value TransactionLockTypeContextKey = AnyValue.str i) :
    GetLockType c = Outcome.returned (some i) := by
  simp [GetLockType, h, assertString]

theorem GetLockType_congr (c d : Context)
    (h : d.Value TransactionLockTypeContextKey = c.Value TransactionLockTypeContextKey) :
    GetLockType d = GetLockType c := by
  simp [GetLockType, h]

theorem BeginTransaction_returned_cases (drv : Driver) (s s1 : PoolState) (c c1 : Context)
    (h1 : GormDB) (hr : BeginTransaction drv s c = (Outcome.returned (c1, h1), s1)) :
    (c.Value TransactionContextKey = AnyValue.db h1 ∧ c1 = c ∧ s1 = s)
      ∨ (c.Value TransactionContextKey = AnyValue.nil
          ∧ c1 = Context.withValue c TransactionContextKey (AnyValue.db (GormDB.tx s.started))
          ∧ h1 = GormDB.tx s.started ∧ s1 = (GormDB.Begin drv s).2) := by
  cases hv : c.Value TransactionContextKey with
  | nil =>
    rw [BeginTransaction_unbound drv s c hv] at hr
    simp only [Prod.mk.injEq, Outcome.returned.injEq] at hr
    obtain ⟨⟨hc, hh⟩, hs⟩ := hr
    exact Or.inr ⟨rfl, hc.symm, hh.symm, hs.symm⟩
  | db r =>
    rw [BeginTransaction_bound drv s c r hv] at hr
    simp only [Prod.mk.injEq, Outcome.returned.injEq] at hr
    obtain ⟨⟨hc, hh⟩, hs⟩ := hr
    subst hh
    exact Or.inl ⟨rfl, hc.symm, hs.symm⟩
  | str t => simp [BeginTransaction, hv, assertGormDB] at hr
  | other t => simp [BeginTransaction, hv, assertGormDB] at hr

theorem BeginTransaction_returned_lockType (drv : Driver) (s s1 : PoolState) (c c1 : Context)
    (h1 : GormDB) (hr : BeginTransaction drv s c = (Outcome.returned (c1, h1), s1)) :
    c1.Value TransactionLockTypeContextKey = c.Value TransactionLockTypeContextKey := by
  rcases BeginTransaction_returned_cases drv s s1 c c1 h1 hr with ⟨-, hc, -⟩ | ⟨-, hc, -, -⟩
  · rw [hc]
  · rw [hc]
    simp [Context.Value, TransactionContextKey_ne_lockType]

theorem SetUpdateLockType_Value_transaction (c : Context) :
    (SetUpdateLockType c).Value TransactionContextKey = c.Value TransactionContextKey := by
  simp [SetUpdateLockType, Context.Value, TransactionContextKey_ne_lockType.symm]

theorem SetShareLockType_Value_transaction (c : Context) :
    (SetShareLockType c).Value TransactionContextKey = c.Value TransactionContextKey := by
  simp [SetShareLockType, Context.Value, TransactionContextKey_ne_lockType.symm]

theorem derive_lockType_value (drv : Driver) (ops : List DeriveOp) :
    ∀ (s s1 : PoolState) (c c1 : Context),
      derive drv s c ops = (Outcome.returned c1, s1) →
      c1.Value TransactionLockTypeContextKey
        = (match lastIntent ops with
           | some i => AnyValue.str i
           | none => c.Value TransactionLockTypeContextKey) := by
  induction ops with
  | nil =>
    intro s s1 c c1 hd
    simp only [derive, Prod.mk.injEq, Outcome.returned.injEq] at hd
    simp [lastIntent, hd.1]
  | cons op rest ih =>
    intro s s1 c c1 hd
    cases op with
    | setUpdateLockType =>
      simp only [derive] at hd
      have h := ih s s1 (SetUpdateLockType c) c1 hd
      rw [h]
      cases hl : lastIntent rest <;>
        simp [lastIntent, hl, DeriveOp.intent, SetUpdateLockType, Context.Value]
    | setShareLockType =>
      simp only [derive] at hd
      have h := ih s s1 (SetShareLockType c) c1 hd
      rw [h]
      cases hl : lastIntent rest <;>
        simp [lastIntent, hl, DeriveOp.intent, SetShareLockType, Context.Value]
    | beginTransaction =>
      simp only [derive] at hd
      rcases hb : BeginTransaction drv s c with ⟨out, s2⟩
      rw [hb] at hd
      cases out with
      | panicked p => simp at hd
      | returned r =>
        obtain ⟨c2, h2⟩ := r
        simp only at hd
        have h := ih s2 s1 c2 c1 hd
        rw [h, BeginTransaction_returned_lockType drv s s2 c c2 h2 hb]
        cases hl : lastIntent rest <;> simp [lastIntent, hl, DeriveOp.intent]

theorem derive_returns (drv : Driver) (ops : List DeriveOp) :
    ∀ (s : PoolState) (c : Context),
      (c.Value TransactionContextKey = AnyValue.nil
        ∨ ∃ h, c.Value TransactionContextKey = AnyValue.db h) →
      ∃ c1 s1, derive drv s c ops = (Outcome.returned c1, s1) := by
  induction ops with
  | nil => intro s c _; exact ⟨c, s, rfl⟩
  | cons op rest ih =>
    intro s c hc
    cases op with
    | setUpdateLockType =>
      simp only [derive]
      exact ih s _ (by rw [SetUpdateLockType_Value_transaction]; exact hc)
    | setShareLockType =>
      simp only [derive]
      exact ih s _ (by rw [SetShareLockType_Value_transaction]; exact hc)
    | beginTransaction =>
      simp only [derive]
      rcases hc with hn | ⟨h, hb⟩
      · rw [BeginTransaction_unbound drv s c hn]
        exact ih _ _ (Or.inr ⟨_, Context.Value_withValue_same _ _ _⟩)
      · rw [BeginTransaction_bound drv s c h hb]
        exact ih _ _ (Or.inr ⟨h, hb⟩)

theorem SetUpdateLockType_bindings_transaction (c : Context) :
    (SetUpdateLockType c).bindings TransactionContextKey = c.bindings TransactionContextKey := by
  simp [SetUpdateLockType, Context.bindings, TransactionContextKey_ne_lockType.symm]

theorem SetShareLockType_bindings_transaction (c : Context) :
    (SetShareLockType c).bindings TransactionContextKey = c.bindings TransactionContextKey := by
  simp [SetShareLockType, Context.bindings, TransactionContextKey_ne_lockType.symm]

theorem derive_bound (drv : Driver) (h : GormDB) (ops : List DeriveOp) :
    ∀ (s : PoolState) (c : Context), c.Value TransactionContextKey = AnyValue.db h →
      ∃ c1, derive drv s c ops = (Outcome.returned c1, s)
        ∧ c1.bindings TransactionContextKey = c.bindings TransactionContextKey := by
  induction ops with
  | nil => intro s c _; exact ⟨c, rfl, rfl⟩
  | cons op rest ih =>
    intro s c hb
    cases op with
    | setUpdateLockType =>
      obtain ⟨c1, hd, hn⟩ :=
        ih s (SetUpdateLockType c) (by rw [SetUpdateLockType_Value_transaction]; exact hb)
      exact ⟨c1, by simpa only [derive] using hd,
        by rw [hn, SetUpdateLockType_bindings_transaction]⟩
    | setShareLockType =>
      obtain ⟨c1, hd, hn⟩ :=
        ih s (SetShareLockType c) (by rw [SetShareLockType_Value_transaction]; exact hb)
      exact ⟨c1, by simpa only [derive] using hd,
        by rw [hn, SetShareLockType_bindings_transaction]⟩
    | beginTransaction =>
      obtain ⟨c1, hd, hn⟩ := ih s c hb
      refine ⟨c1, ?_, hn⟩
      simp only [derive, BeginTransaction_bound drv s c h hb]
      exact hd

/-- C11 (lock type round trip): `GetLockType` after `SetUpdateLockType` is
`"UPDATE"`, after `SetShareLockType` it is `"SHARE"`, and on a context whose
derivation chain binds nothing under the lock-type key it is nil. -/
theorem GetLockType_round_trip (c : Context) :
    GetLockType (SetUpdateLockType c) = Outcome.returned (some "UPDATE")
      ∧ GetLockType (SetShareLockType c) = Outcome.returned (some "SHARE")
      ∧ (c.bindings TransactionLockTypeContextKey = 0 →
          GetLockType c = Outcome.returned none) := by
  refine ⟨?_, ?_, fun h0 => ?_⟩
  · exact GetLockType_of_str _ _ (Context.Value_withValue_same _ _ _)
  · exact GetLockType_of_str _ _ (Context.Value_withValue_same _ _ _)
  · simp [GetLockType, Context.Value_of_bindings_zero _ c h0]

/-- Witness of C11: a context that carries a handle and no lock type. -/
theorem GetLockType_round_trip_witness :
    GetLockType
        (Context.withValue Context.background TransactionContextKey (AnyValue.db (GormDB.tx 0)))
      = Outcome.returned none :=
  (GetLockType_round_trip
    (Context.withValue Context.background TransactionContextKey
      (AnyValue.db (GormDB.tx 0)))).2.2 (by decide)

/-- C12 (shadowing): whenever a sequence of `SetUpdateLockType`,
`SetShareLockType` and `BeginTransaction` steps applied to `c` returns a
context, `GetLockType` of that context is the lock type of the last lock setter
of the sequence; and the sequence does return a context whenever `c` carries a
handle or nothing under the transaction key. -/
theorem GetLockType_last_setter (drv : Driver) (s : PoolState) (c : Context)
    (ops : List DeriveOp) :
    (∀ (c1 : Context) (s1 : PoolState) (i : String),
        derive drv s c ops = (Outcome.returned c1, s1) → lastIntent ops = some i →
        GetLockType c1 = Outcome.returned (some i))
      ∧ ((c.Value TransactionContextKey = AnyValue.nil
            ∨ ∃ h, c.Value TransactionContextKey = AnyValue.db h) →
          ∃ c1 s1, derive drv s c ops = (Outcome.returned c1, s1)) := by
  refine ⟨fun c1 s1 i hd hl => ?_, derive_returns drv ops s c⟩
  have h := derive_lockType_value drv ops s s1 c c1 hd
  rw [hl] at h
  exact GetLockType_of_str c1 i h

/-- Witness of C12: update lock, begin, share lock, join on the background context. -/
theorem GetLockType_last_setter_witness :
    GetLockType
        (Context.withValue
          (Context.withValue
            (Context.withValue Context.background TransactionLockTypeContextKey
              (AnyValue.str "UPDATE"))
            TransactionContextKey (AnyValue.db (GormDB.tx 0)))
          TransactionLockTypeContextKey (AnyValue.str "SHARE"))
      = Outcome.returned (some "SHARE") :=
  (GetLockType_last_setter Driver.healthy PoolState.init Context.background
    [DeriveOp.setUpdateLockType, DeriveOp.beginTransaction, DeriveOp.setShareLockType,
      DeriveOp.beginTransaction]).1
    (Context.withValue
      (Context.withValue
        (Context.withValue Context.background TransactionLockTypeContextKey
          (AnyValue.str "UPDATE"))
        TransactionContextKey (AnyValue.db (GormDB.tx 0)))
      TransactionLockTypeContextKey (AnyValue.str "SHARE"))
    ⟨1, [Event.begin (GormDB.tx 0)], []⟩ "SHARE" (by decide) (by decide)

/-- C13 (inheritance and independence): the lock setters leave the lookup
under the transaction key, and under every key other than the lock-type key,
as in the parent, so `GetTransaction` and `BeginTransaction` resolve to the
same handle (or begin alike) on the derived context as on the parent; and the
context `BeginTransaction` returns has the lookup of the parent under every
key other than the transaction key, so the same `GetLockType`. The parent is a
value and is not touched by a derivation. -/
theorem bindings_independent (drv : Driver) (s : PoolState) (c : Context) :
    (∀ k, k ≠ TransactionLockTypeContextKey →
        (SetUpdateLockType c).Value k = c.Value k ∧ (SetShareLockType c).Value k = c.Value k)
      ∧ (GetTransaction s (SetUpdateLockType c)).1.map Session.base
          = (GetTransaction s c).1.map Session.base
      ∧ (GetTransaction s (SetShareLockType c)).1.map Session.base
          = (GetTransaction s c).1.map Session.base
      ∧ (BeginTransaction drv s (SetUpdateLockType c)).1.map Prod.snd
          = (BeginTransaction drv s c).1.map Prod.snd
      ∧ (BeginTransaction drv s (SetShareLockType c)).1.map Prod.snd
          = (BeginTransaction drv s c).1.map Prod.snd
      ∧ (BeginTransaction drv s (SetUpdateLockType c)).2 = (BeginTransaction drv s c).2
      ∧ (BeginTransaction drv s (SetShareLockType c)).2 = (BeginTransaction drv s c).2
      ∧ (∀ c1 h1 s1, BeginTransaction drv s c = (Outcome.returned (c1, h1), s1) →
          (∀ k, k ≠ TransactionContextKey → c1.Value k = c.Value k)
            ∧ GetLockType c1 = GetLockType c) := by
  refine ⟨fun k hk => ?_, ?_, ?_, ?_, ?_, ?_, ?_, fun c1 h1 s1 hr => ⟨fun k hk => ?_, ?_⟩⟩
  · simp [SetUpdateLockType, SetShareLockType, Context.Value, hk.symm]
  · cases hv : c.Value TransactionContextKey <;>
      simp [GetTransaction, SetUpdateLockType_Value_transaction, hv, assertGormDB,
        Outcome.map, GormDB.WithContext]
  · cases hv : c.Value TransactionContextKey <;>
      simp [GetTransaction, SetShareLockType_Value_transaction, hv, assertGormDB,
        Outcome.map, GormDB.WithContext]
  · cases hv : c.Value TransactionContextKey <;>
      simp [BeginTransaction, SetUpdateLockType_Value_transaction, hv, assertGormDB,
        Outcome.map, GormDB.Begin]
  · cases hv : c.Value TransactionContextKey <;>
      simp [BeginTransaction, SetShareLockType_Value_transaction, hv, assertGormDB,
        Outcome.map, GormDB.Begin]
  · cases hv : c.Value TransactionContextKey <;>
      simp [BeginTransaction, SetUpdateLockType_Value_transaction, hv, assertGormDB,
        GormDB.Begin]
  · cases hv : c.Value TransactionContextKey <;>
      simp [BeginTransaction, SetShareLockType_Value_transaction, hv, assertGormDB,
        GormDB.Begin]
  · rcases BeginTransaction_returned_cases drv s s1 c c1 h1 hr with ⟨-, hc, -⟩ | ⟨-, hc, -, -⟩
    · rw [hc]
    · rw [hc]; simp [Context.Value, hk.symm]
  · exact GetLockType_congr c c1 (BeginTransaction_returned_lockType drv s s1 c c1 h1 hr)

/-- Witness of C13: `BeginTransaction` on a context with an update lock keeps the lock type. -/
theorem bindings_independent_witness :
    GetLockType
        (Context.withValue (SetUpdateLockType Context.background) TransactionContextKey
          (AnyValue.db (GormDB.tx 0)))
      = GetLockType (SetUpdateLockType Context.background) :=
  ((bindings_independent Driver.healthy PoolState.init
      (SetUpdateLockType Context.background)).2.2.2.2.2.2.2
    (Context.withValue (SetUpdateLockType Context.background) TransactionContextKey
      (AnyValue.db (GormDB.tx 0)))
    (GormDB.tx 0) ⟨1, [Event.begin (GormDB.tx 0)], []⟩ (by decide)).2

/-- C14 (at most one handle): from a context whose chain binds nothing under
the transaction key, every sequence of `BeginTransaction`, `SetUpdateLockType`
and `SetShareLockType` steps returns a context whose chain has at most one
binding under the transaction key, and issues at most one `Begin` on the pool:
the log is unchanged or extended by that one call. -/
theorem at_most_one_handle (drv : Driver) (ops : List DeriveOp) :
    ∀ (s : PoolState) (c : Context), c.bindings TransactionContextKey = 0 →
      ∃ c1 s1, derive drv s c ops = (Outcome.returned c1, s1)
        ∧ c1.bindings TransactionContextKey ≤ 1
        ∧ s1.started ≤ s.started + 1
        ∧ (s1.log = s.log ∨ s1.log = s.log ++ [Event.begin (GormDB.tx s.started)]) := by
  induction ops with
  | nil =>
    intro s c h0
    exact ⟨c, s, rfl, by omega, by omega, Or.inl rfl⟩
  | cons op rest ih =>
    intro s c h0
    cases op with
    | setUpdateLockType =>
      obtain ⟨c1, s1, hd, hrest⟩ :=
        ih s (SetUpdateLockType c) (by rw [SetUpdateLockType_bindings_transaction]; exact h0)
      exact ⟨c1, s1, by simpa only [derive] using hd, hrest⟩
    | setShareLockType =>
      obtain ⟨c1, s1, hd, hrest⟩ :=
        ih s (SetShareLockType c) (by rw [SetShareLockType_bindings_transaction]; exact h0)
      exact ⟨c1, s1, by simpa only [derive] using hd, hrest⟩
    | beginTransaction =>
      have hn := Context.Value_of_bindings_zero TransactionContextKey c h0
      obtain ⟨c1, hd, hb⟩ :=
        derive_bound drv (GormDB.tx s.started) rest (GormDB.Begin drv s).2
          (Context.withValue c TransactionContextKey (AnyValue.db (GormDB.tx s.started)))
          (Context.Value_withValue_same _ _ _)
      refine ⟨c1, (GormDB.Begin drv s).2, ?_, ?_, ?_, Or.inr rfl⟩
      · simp only [derive, BeginTransaction_unbound drv s c hn]
        exact hd
      · rw [hb]
        simp [Context.bindings, h0]
      · simp [GormDB.Begin]

/-- Witness of C14: begin, update lock, join, share lock, join on the background context. -/
theorem at_most_one_handle_witness :
    ∃ c1 s1,
      derive Driver.healthy PoolState.init Context.background
          [DeriveOp.beginTransaction, DeriveOp.setUpdateLockType, DeriveOp.beginTransaction,
            DeriveOp.setShareLockType, DeriveOp.beginTransaction]
        = (Outcome.returned c1, s1)
        ∧ c1.bindings TransactionContextKey ≤ 1
        ∧ s1.started ≤ PoolState.init.started + 1
        ∧ (s1.log = PoolState.init.log
            ∨ s1.log = PoolState.init.log ++ [Event.begin (GormDB.tx PoolState.init.started)]) :=
  at_most_one_handle Driver.healthy
    [DeriveOp.beginTransaction, DeriveOp.setUpdateLockType, DeriveOp.beginTransaction,
      DeriveOp.setShareLockType, DeriveOp.beginTransaction]
    PoolState.init Context.background (by decide)

/-! ## `NewPostgres` -/

theorem float64OfInt_nonpos (n : Int) (hn : n < 0) : float64OfInt n ≤ 0 := by
  unfold float64OfInt
  split
  · omega
  · rw [Int.sign_eq_neg_one_of_neg hn]
    have h := Int.ofNat_nonneg (roundTo53Bits n.natAbs)
    omega

theorem float64OfInt_exact (n : Int) (hn : n.natAbs < 2 ^ 53) : float64OfInt n = n := by
  unfold float64OfInt
  exact if_pos hn

theorem intOfFloat64_max (n d : Int) (hd0 : 0 ≤ d) (hd : d ≤ 10) (hn : n ≤ 2 ^ 53) :
    intOfFloat64 (mathMax (float64OfInt n) d) = some (max n d) := by
  have hval : mathMax (float64OfInt n) d = max n d := by
    unfold mathMax
    by_cases hlt : n.natAbs < 2 ^ 53
    · rw [float64OfInt_exact n hlt]
    · by_cases hneg : n < 0
      · have h1 := float64OfInt_nonpos n hneg
        rw [max_eq_right (by omega), max_eq_right (by omega)]
      · have h2 : n = 2 ^ 53 := by omega
        have h3 : float64OfInt (2 ^ 53) = 2 ^ 53 := by decide
        rw [h2, h3]
  rw [hval]
  have hlo : -(2 : Int) ^ 63 ≤ max n d := le_trans (by norm_num) (le_trans hd0 (le_max_right n d))
  have hhi : max n d < (2 : Int) ^ 63 :=
    max_lt (lt_of_le_of_lt hn (by norm_num)) (lt_of_le_of_lt hd (by norm_num))
  rw [intOfFloat64, if_pos ⟨hlo, hhi⟩]

theorem intOfFloat64_some (f v : Int) (h : intOfFloat64 f = some v) : v = f := by
  unfold intOfFloat64 at h
  split at h
  · exact (Option.some.inj h).symm
  · exact absurd h (by simp)

theorem NewPostgres_service_pool (env : PostgresEnv) (opts : DBServiceOpts) (svc : DBService)
    (hs : (NewPostgres env opts).service = some svc) :
    svc.Gorm = configurePool opts := by
  obtain ⟨uri, app, o, i⟩ := opts
  obtain ⟨e1, e2, e3, e4⟩ := env
  cases uri <;> cases e1 <;> cases e2 <;> cases e3 <;> cases e4 <;>
    simp [NewPostgres] at hs
  subst hs
  simp [configurePool]

theorem SqlDB.SetMaxOpenConns_opened (o : Int) (ho : 10 ≤ o) :
    SqlDB.opened.SetMaxOpenConns o = ⟨o, 0, 0⟩ := by
  have h0 : ¬ o < 0 := by omega
  have h2 : ¬ (o > 0 ∧ (2 : Int) > o) := by omega
  simp [SqlDB.SetMaxOpenConns, SqlDB.opened, SqlDB.maxIdleConnsLocked, h0, h2]

theorem SqlDB.SetMaxIdleConns_sized (o i : Int) (ho : 10 ≤ o) (hi : 5 ≤ i) :
    (SqlDB.mk o 0 0).SetMaxIdleConns i = ⟨o, min i o, 0⟩ := by
  have hi0 : i > 0 := by omega
  have hne : ¬ i = 0 := by omega
  have hnn : ¬ i < 0 := by omega
  by_cases hlt : o < i
  · have hc : o > 0 ∧ i > o := ⟨by omega, hlt⟩
    simp [SqlDB.SetMaxIdleConns, SqlDB.maxIdleConnsLocked, hi0, hne, hnn, hc]
    omega
  · have hc : ¬ (o > 0 ∧ i > o) := by omega
    simp [SqlDB.SetMaxIdleConns, SqlDB.maxIdleConnsLocked, hi0, hne, hnn, hc]
    omega

theorem SqlDB.sized (o i : Int) (ho : 10 ≤ o) (hi : 5 ≤ i) :
    ((SqlDB.opened.SetMaxOpenConns o).SetMaxIdleConns i).maxOpen = o
      ∧ ((SqlDB.opened.SetMaxOpenConns o).SetMaxIdleConns i).maxIdleCount = min i o := by
  rw [SqlDB.SetMaxOpenConns_opened o ho, SqlDB.SetMaxIdleConns_sized o i ho hi]
  exact ⟨rfl, rfl⟩

theorem configurePool_some (opts : DBServiceOpts) (db : SqlDB)
    (h : configurePool opts = some db) :
    ∃ o i : Int,
      intOfFloat64 (mathMax (float64OfInt opts.PostgresMaxOpenConnections)
          DefaultPostgresMaxOpenConnections) = some o
        ∧ intOfFloat64 (mathMax (float64OfInt opts.PostgresMaxIdleConnections)
          DefaultPostgresMaxIdleConnections) = some i
        ∧ 10 ≤ o ∧ 5 ≤ i ∧ db.maxOpen = o ∧ db.maxIdleCount = min i o := by
  unfold configurePool at h
  cases ho : intOfFloat64 (mathMax (float64OfInt opts.PostgresMaxOpenConnections)
      DefaultPostgresMaxOpenConnections) with
  | none => simp [ho] at h
  | some o =>
    cases hi : intOfFloat64 (mathMax (float64OfInt opts.PostgresMaxIdleConnections)
        DefaultPostgresMaxIdleConnections) with
    | none => simp [ho, hi] at h
    | some i =>
      simp only [ho, hi, Option.some.injEq] at h
      have ho10 : 10 ≤ o := by
        rw [intOfFloat64_some _ _ ho]
        exact le_max_right _ _
      have hi5 : 5 ≤ i := by
        rw [intOfFloat64_some _ _ hi]
        exact le_max_right _ _
      obtain ⟨h1, h2⟩ := SqlDB.sized o i ho10 hi5
      refine ⟨o, i, rfl, rfl, ho10, hi5, ?_, ?_⟩
      · rw [← h]; simpa [SqlDB.SetConnMaxIdleTime] using h1
      · rw [← h]; simpa [SqlDB.SetConnMaxIdleTime] using h2

/-- C15 refuted as stated: with the positive values 3 and 3 supplied for
max-open and max-idle, `NewPostgres` leaves the pool with 10 and 5, not the
supplied values. -/
theorem pool_sizing_counterexample :
    (NewPostgres ⟨none, none, none, none⟩ ⟨some "dsn", none, 3, 3⟩).service
      = some ⟨some ⟨10, 5, 19000000000⟩⟩ := by
  decide

/-- C15 as amended: whenever `NewPostgres` returns a service, for supplied
values up to `2^53` (where the conversion to `float64` is exact) the pool is
left with max-open the larger of the supplied value and 10, and with max-idle
the larger of the supplied value and 5, lowered to that max-open when it
exceeds it. -/
theorem pool_sizing_floor (env : PostgresEnv) (opts : DBServiceOpts) (svc : DBService)
    (ho : opts.PostgresMaxOpenConnections ≤ 2 ^ 53)
    (hi : opts.PostgresMaxIdleConnections ≤ 2 ^ 53)
    (hs : (NewPostgres env opts).service = some svc) :
    ∃ db : SqlDB, svc.Gorm = some db
      ∧ db.maxOpen = max opts.PostgresMaxOpenConnections 10
      ∧ db.maxIdleCount
          = min (max opts.PostgresMaxIdleConnections 5) (max opts.PostgresMaxOpenConnections 10)
      ∧ db.maxIdleConnsLocked = db.maxIdleCount := by
  have hg := NewPostgres_service_pool env opts svc hs
  have h1 := intOfFloat64_max opts.PostgresMaxOpenConnections 10 (by norm_num) (by norm_num) ho
  have h2 := intOfFloat64_max opts.PostgresMaxIdleConnections 5 (by norm_num) (by norm_num) hi
  cases hc : configurePool opts with
  | none =>
    simp [configurePool, DefaultPostgresMaxOpenConnections, DefaultPostgresMaxIdleConnections,
      h1, h2] at hc
  | some db =>
    obtain ⟨o, i, e1, e2, ho10, hi5, hmo, hmi⟩ := configurePool_some opts db hc
    rw [DefaultPostgresMaxOpenConnections, h1, Option.some.injEq] at e1
    rw [DefaultPostgresMaxIdleConnections, h2, Option.some.injEq] at e2
    subst e1 e2
    refine ⟨db, by rw [hg, hc], hmo, hmi, ?_⟩
    have hpos : 0 < db.maxIdleCount := by
      rw [hmi]
      exact lt_min (by omega) (by omega)
    unfold SqlDB.maxIdleConnsLocked
    rw [if_neg (by omega), if_neg (by omega)]

/-- Witness of C15 as amended: supplied max-open 0 and max-idle 20. -/
theorem pool_sizing_floor_witness :
    ∃ db : SqlDB, (DBService.mk (some ⟨10, 10, 19000000000⟩)).Gorm = some db
      ∧ db.maxOpen = max (DBServiceOpts.mk (some "dsn") none 0 20).PostgresMaxOpenConnections 10
      ∧ db.maxIdleCount
          = min (max (DBServiceOpts.mk (some "dsn") none 0 20).PostgresMaxIdleConnections 5)
              (max (DBServiceOpts.mk (some "dsn") none 0 20).PostgresMaxOpenConnections 10)
      ∧ db.maxIdleConnsLocked = db.maxIdleCount :=
  pool_sizing_floor ⟨none, none, none, none⟩ ⟨some "dsn", none, 0, 20⟩
    ⟨some ⟨10, 10, 19000000000⟩⟩ (by decide) (by decide) (by decide)

/-- C16: whenever `NewPostgres` returns a service, the max-idle value the pool
is left with is at most its max-open value, for every supplied pair whose
sizing Go defines (every pair of values up to `2^53` at least): `database/sql`
lowers an idle limit above the open limit, which here is at least 10. -/
theorem idle_le_open (env : PostgresEnv) (opts : DBServiceOpts) (svc : DBService)
    (hs : (NewPostgres env opts).service = some svc) :
    (∀ db : SqlDB, svc.Gorm = some db →
        db.maxIdleCount ≤ db.maxOpen ∧ db.maxIdleConnsLocked ≤ db.maxOpen
          ∧ 10 ≤ db.maxOpen ∧ 5 ≤ db.maxIdleCount)
      ∧ (opts.PostgresMaxOpenConnections ≤ 2 ^ 53 → opts.PostgresMaxIdleConnections ≤ 2 ^ 53 →
          ∃ db : SqlDB, svc.Gorm = some db) := by
  have hg := NewPostgres_service_pool env opts svc hs
  constructor
  · intro db hdb
    rw [hg] at hdb
    obtain ⟨o, i, -, -, ho10, hi5, hmo, hmi⟩ := configurePool_some opts db hdb
    have hle : db.maxIdleCount ≤ db.maxOpen := by rw [hmi, hmo]; exact min_le_right _ _
    have h5 : 5 ≤ db.maxIdleCount := by rw [hmi]; exact le_min hi5 (by omega)
    refine ⟨hle, ?_, by omega, h5⟩
    unfold SqlDB.maxIdleConnsLocked
    rw [if_neg (by omega), if_neg (by omega)]
    exact hle
  · intro ho hi
    have h1 := intOfFloat64_max opts.PostgresMaxOpenConnections 10 (by norm_num) (by norm_num) ho
    have h2 := intOfFloat64_max opts.PostgresMaxIdleConnections 5 (by norm_num) (by norm_num) hi
    rw [hg]
    simp [configurePool, DefaultPostgresMaxOpenConnections, DefaultPostgresMaxIdleConnections,
      h1, h2]

/-- Witness of C16: supplied max-open 0 and max-idle 20 leave the pool at 10 and 10. -/
theorem idle_le_open_witness :
    (SqlDB.mk 10 10 19000000000).maxIdleCount ≤ (SqlDB.mk 10 10 19000000000).maxOpen
      ∧ (SqlDB.mk 10 10 19000000000).maxIdleConnsLocked ≤ (SqlDB.mk 10 10 19000000000).maxOpen
      ∧ 10 ≤ (SqlDB.mk 10 10 19000000000).maxOpen
      ∧ 5 ≤ (SqlDB.mk 10 10 19000000000).maxIdleCount :=
  (idle_le_open ⟨none, none, none, none⟩ ⟨some "dsn", none, 0, 20⟩
    ⟨some ⟨10, 10, 19000000000⟩⟩ (by decide)).1 ⟨10, 10, 19000000000⟩ rfl

/-- C17 refuted as stated: with `PostgresUri` nil, `NewPostgres` returns a nil
service together with a nil error. -/
theorem NewPostgres_neither_counterexample :
    (NewPostgres ⟨none, none, none, none⟩ ⟨none, none, 0, 0⟩).service = none
      ∧ (NewPostgres ⟨none, none, none, none⟩ ⟨none, none, 0, 0⟩).err = none := by
  decide

/-- C17 as amended: with `PostgresUri` nil, `NewPostgres` returns a nil service
and a nil error; with `PostgresUri` set it returns either a service and a nil
error or a nil service and a non-nil error, a failed connect, open, `DB()` or
ping yields an error and no service, and when none of them fails it yields a
service and no error. -/
theorem NewPostgres_service_xor_error (env : PostgresEnv) (opts : DBServiceOpts) :
    (opts.PostgresUri = none →
        (NewPostgres env opts).service = none ∧ (NewPostgres env opts).err = none)
      ∧ (opts.PostgresUri ≠ none →
          (((NewPostgres env opts).service ≠ none ∧ (NewPostgres env opts).err = none)
              ∨ ((NewPostgres env opts).service = none ∧ (NewPostgres env opts).err ≠ none))
            ∧ ((env.connectErr ≠ none ∨ env.openErr ≠ none ∨ env.dbErr ≠ none
                  ∨ env.pingErr ≠ none) →
                (NewPostgres env opts).service = none ∧ (NewPostgres env opts).err ≠ none)
            ∧ ((env.connectErr = none ∧ env.openErr = none ∧ env.dbErr = none
                  ∧ env.pingErr = none) →
                (NewPostgres env opts).service ≠ none ∧ (NewPostgres env opts).err = none)) := by
  obtain ⟨uri, app, o, i⟩ := opts
  obtain ⟨e1, e2, e3, e4⟩ := env
  cases uri <;> cases e1 <;> cases e2 <;> cases e3 <;> cases e4 <;> simp [NewPostgres]

/-- Witness of C17 as amended: a failed ping with the URI set, and a nil URI. -/
theorem NewPostgres_service_xor_error_witness :
    ((NewPostgres ⟨none, none, none, some "timeout"⟩ ⟨some "dsn", none, 0, 0⟩).service = none
        ∧ (NewPostgres ⟨none, none, none, some "timeout"⟩ ⟨some "dsn", none, 0, 0⟩).err ≠ none)
      ∧ ((NewPostgres ⟨none, none, none, none⟩ ⟨none, none, 0, 0⟩).service = none
        ∧ (NewPostgres ⟨none, none, none, none⟩ ⟨none, none, 0, 0⟩).err = none) :=
  ⟨((NewPostgres_service_xor_error ⟨none, none, none, some "timeout"⟩
        ⟨some "dsn", none, 0, 0⟩).2 (by decide)).2.1 (by decide),
   (NewPostgres_service_xor_error ⟨none, none, none, none⟩ ⟨none, none, 0, 0⟩).1 (by decide)⟩

/-! ## Cancelled contexts -/

/-- C18 refuted as stated: on a cancelled context that carries no handle, with
a data store on which no call fails, `BeginTransaction` returns normally: a
transaction is begun, its handle is bound into the returned context, and no
error is recorded anywhere. -/
theorem BeginTransaction_cancelled_counterexample :
    (Context.withCancel Context.background true).Err = true
      ∧ (Context.withCancel Context.background true).Value TransactionContextKey = AnyValue.nil
      ∧ BeginTransaction Driver.healthy PoolState.init (Context.withCancel Context.background true)
        = (Outcome.returned
            (Context.withValue (Context.withCancel Context.background true)
              TransactionContextKey (AnyValue.db (GormDB.tx 0)), GormDB.tx 0),
           ⟨1, [Event.begin (GormDB.tx 0)], []⟩) := by
  decide

/-- C18 as amended: on a context that carries no handle and is cancelled or
past its deadline, `BeginTransaction` returns normally (it has no error result
and does not panic): it issues one `Begin` on the pool and binds the returned
handle into the derived context; a failure of that begin is recorded on the
handle only. -/
theorem BeginTransaction_cancelled_begins (drv : Driver) (s : PoolState) (ctx : Context)
    (hn : ctx.Value TransactionContextKey = AnyValue.nil) (hc : ctx.Err = true) :
    ∃ s1 : PoolState,
      BeginTransaction drv s ctx
          = (Outcome.returned
              (Context.withValue ctx TransactionContextKey (AnyValue.db (GormDB.tx s.started)),
                GormDB.tx s.started), s1)
        ∧ (Context.withValue ctx TransactionContextKey
              (AnyValue.db (GormDB.tx s.started))).Err = true
        ∧ s1.log = s.log ++ [Event.begin (GormDB.tx s.started)]
        ∧ s1.errored
            = (if drv.beginErr s then GormDB.tx s.started :: s.errored else s.errored) := by
  refine ⟨(GormDB.Begin drv s).2, BeginTransaction_unbound drv s ctx hn, ?_, rfl, rfl⟩
  simpa [Context.Err] using hc

/-- Witness of C18 as amended: the cancelled context over the background context. -/
theorem BeginTransaction_cancelled_begins_witness :
    ∃ s1 : PoolState,
      BeginTransaction Driver.healthy PoolState.init (Context.withCancel Context.background true)
          = (Outcome.returned
              (Context.withValue (Context.withCancel Context.background true)
                TransactionContextKey (AnyValue.db (GormDB.tx PoolState.init.started)),
                GormDB.tx PoolState.init.started), s1)
        ∧ (Context.withValue (Context.withCancel Context.background true)
              TransactionContextKey (AnyValue.db (GormDB.tx PoolState.init.started))).Err = true
        ∧ s1.log = PoolState.init.log ++ [Event.begin (GormDB.tx PoolState.init.started)]
        ∧ s1.errored
            = (if Driver.healthy.beginErr PoolState.init
                then GormDB.tx PoolState.init.started :: PoolState.init.errored
                else PoolState.init.errored) :=
  BeginTransaction_cancelled_begins Driver.healthy PoolState.init
    (Context.withCancel Context.background true) (by decide) (by decide)

end Database

namespace Config

/-! ## `GlobalConfig.Validate` -/

/-- C20 at the failing input: a production configuration whose required fields
are all valid and whose `PrivateKey` (or `PublicKey`) is empty makes `Validate`
return an error, not nil. -/
theorem Validate_production_missing_key_fails :
    Validate ⟨"svc", 8080, "postgres://db", "iss", "aud", 1, 1, "production", "", "pub"⟩
        = some "PRIVATE_KEY should be set in production"
      ∧ Validate ⟨"svc", 8080, "postgres://db", "iss", "aud", 1, 1, "production", "priv", ""⟩
        = some "PUBLIC_KEY should be set in production" := by
  decide

theorem ite_append_list (b : Prop) [Decidable b] (errs x : List String) :
    (if b then errs ++ x else errs) = errs ++ (if b then x else []) := by
  split <;> simp

theorem ite_append_list_two (b : Prop) [Decidable b] (errs x y : List String) :
    (if b then errs ++ x ++ y else errs) = errs ++ (if b then x ++ y else []) := by
  split <;> simp

theorem ite_production_keys (p q r : Prop) [Decidable p] [Decidable q] [Decidable r]
    (m1 m2 : String) :
    (if p then (if q then [m1] else []) ++ (if r then [m2] else []) else [])
      = (if p ∧ q then [m1] else []) ++ (if p ∧ r then [m2] else []) := by
  by_cases hp : p <;> simp [hp]

theorem join_if_nonempty (l : List String) :
    (if l.length > 0 then some (String.intercalate "; " l) else none)
      = (if l = [] then none else some (String.intercalate "; " l)) := by
  cases l <;> simp

theorem Validate_eq_violatedRules (c : GlobalConfig) :
    Validate c
      = (if violatedRules c = [] then none
         else some (String.intercalate "; " (violatedRules c))) := by
  have h : Validate c
      = (if (violatedRules c).length > 0 then some (String.intercalate "; " (violatedRules c))
         else none) := by
    unfold Validate violatedRules
    simp only [ite_append_list_two, ite_append_list, List.nil_append, ite_production_keys]
    simp only [List.append_assoc]
  rw [h, join_if_nonempty]

theorem violatedRules_eq_nil_iff (c : GlobalConfig) :
    violatedRules c = [] ↔
      c.ServiceName ≠ "" ∧ c.PostgresURI ≠ "" ∧ c.JwtIssuer ≠ "" ∧ c.JwtAudience ≠ ""
        ∧ 0 < c.Port ∧ 0 < c.JwtExpirationTime ∧ 0 < c.JwtRefreshTime
        ∧ (c.Environment ≠ "production" ∨ (c.PrivateKey ≠ "" ∧ c.PublicKey ≠ "")) := by
  simp only [violatedRules, List.append_eq_nil, ite_eq_right_iff, List.cons_ne_nil, imp_false,
    not_le, not_and, ne_eq]
  tauto

/-- C21: `Validate` returns nil exactly when `ServiceName`, `PostgresURI`,
`JwtIssuer` and `JwtAudience` are non-empty, `Port`, `JwtExpirationTime` and
`JwtRefreshTime` are greater than 0, and the environment is not "production"
or both keys are non-empty; otherwise it returns the error whose message is
the messages of the violated rules, in the order of the checks, joined by "; ". -/
theorem Validate_nil_iff (c : GlobalConfig) :
    (Validate c = none ↔
        c.ServiceName ≠ "" ∧ c.PostgresURI ≠ "" ∧ c.JwtIssuer ≠ "" ∧ c.JwtAudience ≠ ""
          ∧ 0 < c.Port ∧ 0 < c.JwtExpirationTime ∧ 0 < c.JwtRefreshTime
          ∧ (c.Environment ≠ "production" ∨ (c.PrivateKey ≠ "" ∧ c.PublicKey ≠ "")))
      ∧ (Validate c ≠ none →
          violatedRules c ≠ []
            ∧ Validate c = some (String.intercalate "; " (violatedRules c))) := by
  constructor
  · rw [← violatedRules_eq_nil_iff, Validate_eq_violatedRules]
    by_cases h : violatedRules c = [] <;> simp [h]
  · rw [Validate_eq_violatedRules]
    by_cases h : violatedRules c = [] <;> simp [h]

/-- Witness of C21: a configuration with an empty service name and port 0 in
production without a public key, and a valid development configuration. -/
theorem Validate_nil_iff_witness :
    Validate ⟨"", 0, "postgres://db", "iss", "aud", 1, 1, "production", "priv", ""⟩
        = some (String.intercalate "; "
            (violatedRules
              ⟨"", 0, "postgres://db", "iss", "aud", 1, 1, "production", "priv", ""⟩))
      ∧ Validate ⟨"svc", 8080, "postgres://db", "iss", "aud", 1, 1, "development", "", ""⟩
        = none :=
  ⟨((Validate_nil_iff
        ⟨"", 0, "postgres://db", "iss", "aud", 1, 1, "production", "priv", ""⟩).2
      (by decide)).2,
   (Validate_nil_iff
      ⟨"svc", 8080, "postgres://db", "iss", "aud", 1, 1, "development", "", ""⟩).1.2
    (by decide)⟩

end Config

namespace Example

open Database

/-! ## The book repository and use cases -/

theorem Repository.Get_some (store : Store) (s : PoolState) (ctx : Context) (id : String)
    (r : Option Book) (hr : Repository.Get store s ctx id = Outcome.returned r) :
    ∃ book, r = some book := by
  unfold Repository.Get at hr
  cases hg : (GetTransaction s ctx).1 with
  | panicked p => simp [hg] at hr
  | returned tx =>
    simp only [hg, Outcome.returned.injEq] at hr
    exact ⟨_, hr.symm⟩

/-- C22: `Repository.Get`, whenever it returns, returns a non-nil book pointer
(the zero-valued book when no row matches), and it does return on every
context that carries a handle or nothing under the transaction key; so with
this repository `UseCase.Get` never returns the 404 "Book not found" response
and `UseCase.Update` and `UseCase.Delete` never return through their
not-found branch. -/
theorem Get_never_not_found (store : Store) (s : PoolState) (ctx : Context)
    (id title author : String) (now : Int) :
    (∀ r, Repository.Get store s ctx id = Outcome.returned r → r ≠ none)
      ∧ (∀ tx, (GetTransaction s ctx).1 = Outcome.returned tx → store.first tx id = none →
          Repository.Get store s ctx id = Outcome.returned (some Book.zero))
      ∧ ((ctx.Value TransactionContextKey = AnyValue.nil
            ∨ ∃ h, ctx.Value TransactionContextKey = AnyValue.db h) →
          ∃ book, Repository.Get store s ctx id = Outcome.returned (some book))
      ∧ UseCase.Get (NewRepository store s) ctx id ≠ Outcome.returned bookNotFound
      ∧ UseCase.Update (NewRepository store s) now ctx id title author
          ≠ Outcome.returned bookNotFound
      ∧ UseCase.Delete (NewRepository store s) ctx id ≠ Outcome.returned bookNotFound := by
  refine ⟨fun r hr => ?_, fun tx hg hf => ?_, fun hc => ?_, ?_, ?_, ?_⟩
  · obtain ⟨book, hb⟩ := Repository.Get_some store s ctx id r hr
    simp [hb]
  · simp [Repository.Get, hg, hf]
  · rcases hc with hn | ⟨h, hb⟩
    · have hg : (GetTransaction s ctx).1 = Outcome.returned ⟨GormDB.pool, ctx⟩ := by
        simp [GetTransaction, hn, assertGormDB, GormDB.WithContext]
      exact ⟨match store.first ⟨GormDB.pool, ctx⟩ id with
        | some row => row
        | none => Book.zero, by simp only [Repository.Get, hg]⟩
    · have hg : (GetTransaction s ctx).1 = Outcome.returned ⟨h, ctx⟩ := by
        rw [GetTransaction_bound s ctx h hb]
      exact ⟨match store.first ⟨h, ctx⟩ id with
        | some row => row
        | none => Book.zero, by simp only [Repository.Get, hg]⟩
  · cases hr : Repository.Get store s ctx id with
    | panicked p => simp [UseCase.Get, NewRepository, hr]
    | returned r =>
      obtain ⟨book, hb⟩ := Repository.Get_some store s ctx id r hr
      subst hb
      simp [UseCase.Get, NewRepository, hr, bookNotFound]
  · cases hr : Repository.Get store s ctx id with
    | panicked p => simp [UseCase.Update, NewRepository, hr]
    | returned r =>
      obtain ⟨book, hb⟩ := Repository.Get_some store s ctx id r hr
      subst hb
      simp only [UseCase.Update, NewRepository, hr, bookNotFound]
      split <;> simp
  · cases hr : Repository.Get store s ctx id with
    | panicked p => simp [UseCase.Delete, NewRepository, hr]
    | returned r =>
      obtain ⟨book, hb⟩ := Repository.Get_some store s ctx id r hr
      subst hb
      simp only [UseCase.Delete, NewRepository, hr, bookNotFound]
      split <;> simp

/-- Witness of C22: an empty store, the background context: `Repository.Get`
returns the zero-valued book and `UseCase.Get` answers 200 with empty fields. -/
theorem Get_never_not_found_witness :
    Repository.Get ⟨fun _ _ => none, fun _ _ => none, fun _ _ => none⟩ PoolState.init
        Context.background "42"
      = Outcome.returned (some Book.zero) :=
  (Get_never_not_found ⟨fun _ _ => none, fun _ _ => none, fun _ _ => none⟩ PoolState.init
    Context.background "42" "t" "a" 0).2.1 ⟨GormDB.pool, Context.background⟩ (by decide) rfl

end Example
